import Mathlib

/-! The six route handlers of the Fiber and the Gin server of benchmark_fiber_gin.

Shallow embedding of `servers/fiber/fiber_v3.go` and `servers/gin/gin_server.go`.
Both files register the same six routes; every handler is a closure that reads
its input from the framework context and writes one status and one body.

* A Go `string` is a sequence of bytes, modelled as `List Nat` with every
  element below 256 (`GoString.wellFormed`).
* `strconv.Atoi`, which both `GET /user/:id` handlers and the Gin `GET /search`
  handler call, is transcribed from the Go standard library (`strconv/atoi.go`)
  for a 64-bit platform, with machine arithmetic made explicit.
* Each file has its own framework context (`Fiber.Ctx`, `Gin.Context`) whose
  fields are the calls the closures of that file make; what a call returns is a
  parameter.  `Fiber.ctxOf` and `Gin.ctxOf` answer the calls from one request by
  the accessor contract of the spec.
-/

namespace FiberGin

/-! ## Go strings -/

/-- A Go string: its bytes, in order. -/
abbrev GoString := List Nat

/-- Every element is a byte. -/
def GoString.wellFormed (s : GoString) : Prop := ∀ b ∈ s, b < 256

instance (s : GoString) : Decidable (GoString.wellFormed s) := by
  unfold GoString.wellFormed; infer_instance

/-- The bytes of an ASCII string literal of the source. -/
def lit (s : String) : GoString := s.toList.map Char.toNat

/-! ## `strconv.Atoi` (Go standard library, 64-bit platform)

The handlers call `strconv.Atoi`; its source is `strconv/atoi.go` of the Go
distribution.  The parts that are modelled, with `base = 10` and `bitSize = 0`:

```go
func ParseUint(s string, base int, bitSize int) (uint64, error) {
	if s == "" { return 0, syntaxError(fnParseUint, s) }
	...
	cutoff = maxUint64/10 + 1
	maxVal := uint64(1)<<uint(bitSize) - 1
	var n uint64
	for _, c := range []byte(s) {
		var d byte
		switch {
		case c == '_' && base0: ...
		case '0' <= c && c <= '9': d = c - '0'
		case 'a' <= lower(c) && lower(c) <= 'z': d = lower(c) - 'a' + 10
		default: return 0, syntaxError(fnParseUint, s0)
		}
		if d >= byte(base) { return 0, syntaxError(fnParseUint, s0) }
		if n >= cutoff { return maxVal, rangeError(fnParseUint, s0) }
		n *= uint64(base)
		n1 := n + uint64(d)
		if n1 < n || n1 > maxVal { return maxVal, rangeError(fnParseUint, s0) }
		n = n1
	}
	return n, nil
}

func ParseInt(s string, base int, bitSize int) (i int64, err error) {
	if s == "" { return 0, syntaxError(fnParseInt, s) }
	s0 := s
	neg := false
	if s[0] == '+' { s = s[1:] } else if s[0] == '-' { neg = true; s = s[1:] }
	var un uint64
	un, err = ParseUint(s, base, bitSize)
	if err != nil && err.(*NumError).Err != ErrRange {
		err.(*NumError).Func = fnParseInt
		err.(*NumError).Num = cloneString(s0)
		return 0, err
	}
	if bitSize == 0 { bitSize = IntSize }
	cutoff := uint64(1 << uint(bitSize-1))
	if !neg && un >= cutoff { return int64(cutoff - 1), rangeError(fnParseInt, s0) }
	if neg && un > cutoff { return -int64(cutoff), rangeError(fnParseInt, s0) }
	n := int64(un)
	if neg { n = -n }
	return n, nil
}

func Atoi(s string) (int, error) {
	sLen := len(s)
	if intSize == 32 && (0 < sLen && sLen < 10) ||
		intSize == 64 && (0 < sLen && sLen < 19) {
		s0 := s
		if s[0] == '-' || s[0] == '+' {
			s = s[1:]
			if len(s) < 1 { return 0, syntaxError(fnAtoi, s0) }
		}
		n := 0
		for _, ch := range []byte(s) {
			ch -= '0'
			if ch > 9 { return 0, syntaxError(fnAtoi, s0) }
			n = n*10 + int(ch)
		}
		if s0[0] == '-' { n = -n }
		return n, nil
	}
	i64, err := ParseInt(s, 10, 0)
	if nerr, ok := err.(*NumError); ok { nerr.Func = fnAtoi }
	return int(i64), err
}
```
-/

/-- The two sentinel errors of `strconv`: `ErrSyntax` and `ErrRange`. -/
inductive ErrKind where
  | ErrSyntax
  | ErrRange
  deriving DecidableEq, Repr

/-- The `strconv.NumError` record: failing function, input text, reason. -/
structure NumError where
  Func : String
  Num : GoString
  Err : ErrKind
  deriving DecidableEq, Repr

/-- The constant `strconv.IntSize` on the platform of the claims. -/
def intSize : Nat := 64

/-- Conversion to `int64`: two's complement wrap-around. -/
def wrapInt64 (x : Int) : Int := (x + 2 ^ 63) % 2 ^ 64 - 2 ^ 63

/-- Conversion to `uint64`. -/
def wrapUint64 (x : Nat) : Nat := x % 2 ^ 64

/-- Conversion to `byte`, for a value that is at least `-256`. -/
def wrapByte (x : Int) : Nat := ((x + 256) % 256).toNat

/-- The helper `syntaxError(fn, str)`. -/
def syntaxError (fn : String) (str : GoString) : NumError := ⟨fn, str, ErrKind.ErrSyntax⟩

/-- The helper `rangeError(fn, str)`. -/
def rangeError (fn : String) (str : GoString) : NumError := ⟨fn, str, ErrKind.ErrRange⟩

/-- The helper `lower(c)`, which is `c | ('x' - 'X')`. -/
def lower (c : Nat) : Nat := c ||| 32

/-- The constant `maxUint64`. -/
def maxUint64 : Nat := 2 ^ 64 - 1

/-- The digit loop of `ParseUint` at base 10 and bit size 64.  `s0` is the
text reported in errors, `n` the value accumulated so far. -/
def parseUintLoop (s0 : GoString) : List Nat → Nat → Nat × Option NumError
  | [], n => (n, none)
  | c :: rest, n =>
    let cutoff := maxUint64 / 10 + 1
    let maxVal := (wrapUint64 (2 ^ intSize) + 2 ^ 64 - 1) % 2 ^ 64
    let d? : Option Nat :=
      if 48 ≤ c ∧ c ≤ 57 then some (c - 48)
      else if 97 ≤ lower c ∧ lower c ≤ 122 then some (wrapByte (lower c - 97 + 10))
      else none
    match d? with
    | none => (0, some (syntaxError "ParseUint" s0))
    | some d =>
      if d ≥ 10 then (0, some (syntaxError "ParseUint" s0))
      else if n ≥ cutoff then (maxVal, some (rangeError "ParseUint" s0))
      else
        let n10 := wrapUint64 (n * 10)
        let n1 := wrapUint64 (n10 + d)
        if n1 < n10 ∨ n1 > maxVal then (maxVal, some (rangeError "ParseUint" s0))
        else parseUintLoop s0 rest n1

/-- The function `ParseUint(s, 10, 0)`: the only way `ParseInt` is reached from
`Atoi`.  With base 10 the branches for base 0 (prefixes and underscores) are
not taken. -/
def ParseUint (s : GoString) : Nat × Option NumError :=
  if s = [] then (0, some (syntaxError "ParseUint" s))
  else parseUintLoop s s 0

/-- The function `ParseInt(s, 10, 0)`. -/
def ParseInt (s : GoString) : Int × Option NumError :=
  if s = [] then (0, some (syntaxError "ParseInt" s))
  else
    let s0 := s
    let neg := s.head? = some 45
    let s := if s.head? = some 43 then s.tail else if s.head? = some 45 then s.tail else s
    match ParseUint s with
    | (un, err) =>
      match err.filter (fun e => e.Err ≠ ErrKind.ErrRange) with
      | some e => (0, some { e with Func := "ParseInt", Num := s0 })
      | none =>
        let cutoff : Nat := wrapUint64 (2 ^ (intSize - 1))
        if ¬ neg ∧ un ≥ cutoff then (wrapInt64 (wrapUint64 (cutoff + 2 ^ 64 - 1)), some (rangeError "ParseInt" s0))
        else if neg ∧ un > cutoff then (wrapInt64 (-wrapInt64 cutoff), some (rangeError "ParseInt" s0))
        else
          let n := wrapInt64 un
          (if neg then wrapInt64 (-n) else n, none)

/-- The digit loop of the fast path of `Atoi`; `none` stands for the early
return with a syntax error. -/
def atoiFastLoop : List Nat → Int → Option Int
  | [], n => some n
  | ch :: rest, n =>
    let ch := (ch + 256 - 48) % 256
    if ch > 9 then none else atoiFastLoop rest (wrapInt64 (n * 10 + ch))

/-- The function `strconv.Atoi`: the parsed value and the error (`none` is `nil`). -/
def Atoi (s : GoString) : Int × Option NumError :=
  let sLen := s.length
  if intSize = 32 ∧ (0 < sLen ∧ sLen < 10) ∨ intSize = 64 ∧ (0 < sLen ∧ sLen < 19) then
    let s0 := s
    let signed := s.head? = some 45 ∨ s.head? = some 43
    let s := if signed then s.tail else s
    if signed ∧ s.length < 1 then (0, some (syntaxError "Atoi" s0))
    else
      match atoiFastLoop s 0 with
      | none => (0, some (syntaxError "Atoi" s0))
      | some n => (if s0.head? = some 45 then wrapInt64 (-n) else n, none)
  else
    match ParseInt s with
    | (i64, err) => (i64, err.map (fun e => { e with Func := "Atoi" }))

/-! ## Requests and responses -/

/-- The struct `User` that both files declare. -/
structure User where
  ID : Int
  Name : GoString
  Email : GoString
  deriving DecidableEq, Repr

/-- A value the handlers hand to the JSON encoder as a field. -/
inductive JSONValue where
  | str (s : GoString)
  | int (n : Int)
  | strings (xs : List GoString)
  deriving DecidableEq, Repr

/-- A JSON object: its fields in the order the encoder emits them. -/
abbrev JSONObject := List (String × JSONValue)

/-- Encoding of a `User`: the struct fields in declaration order under their
`json` tags. -/
def User.toJSON (u : User) : JSONObject :=
  [("id", JSONValue.int u.ID), ("name", JSONValue.str u.Name), ("email", JSONValue.str u.Email)]

/-- Go string comparison `a <= b`: bytewise lexicographic order. -/
def bytesLE : GoString → GoString → Bool
  | [], _ => true
  | _ :: _, [] => false
  | a :: as, b :: bs => a < b || (a == b && bytesLE as bs)

/-- Insertion of one map entry into a list of entries sorted by key. -/
def insertField (kv : String × JSONValue) : JSONObject → JSONObject
  | [] => [kv]
  | kv1 :: rest =>
    if bytesLE (lit kv.1) (lit kv1.1) then kv :: kv1 :: rest
    else kv1 :: insertField kv rest

/-- Encoding of a `fiber.Map` or `gin.H` literal (a Go map): the encoder emits
the keys in sorted order, whatever the order of the literal. -/
def encodeMap (m : List (String × JSONValue)) : JSONObject :=
  m.foldr insertField []

/-- The body of a response. -/
inductive Body where
  | text (s : GoString)
  | json (o : JSONObject)
  deriving DecidableEq, Repr

/-- What a handler sends: status code and body. -/
structure Response where
  status : Nat
  body : Body
  deriving DecidableEq, Repr

/-- The value of a field of a JSON body, when the body is an object with
that field. -/
def Response.field (r : Response) (key : String) : Option JSONValue :=
  match r.body with
  | Body.json o => (o.find? (fun kv => kv.1 = key)).map (fun kv => kv.2)
  | Body.text _ => none

/-- The field names of a JSON body. -/
def Response.keys (r : Response) : List String :=
  match r.body with
  | Body.json o => o.map (fun kv => kv.1)
  | Body.text _ => []

/-- What the framework context gives a handler to read.  `bound` and
`bindErr` are the outcome of binding the request body into a zero `User`: the
target as the decoder left it, and the message of the decode error (`none`
when decoding succeeded). -/
structure RequestContext where
  params : List (GoString × GoString)
  query : List (GoString × GoString)
  form : List (GoString × GoString)
  bound : User
  bindErr : Option GoString

/-- Modelled from the spec: the framework accessor `param(name)` (Fiber
`c.Params`, Gin `c.Param`), which returns the bound value of the path parameter
or the empty string when it is absent. -/
def RequestContext.param (c : RequestContext) (name : GoString) : GoString :=
  (c.params.lookup name).getD []

/-- Modelled from the spec: the framework accessor `query(name, default)`
(Fiber `c.Query`, Gin `c.DefaultQuery`), which returns the first value of
`name` in the query mapping, else `default`. -/
def RequestContext.queryOr (c : RequestContext) (name dflt : GoString) : GoString :=
  (c.query.lookup name).getD dflt

/-- Modelled from the spec: the framework accessor `formValue(name)` (Fiber
`c.FormValue`, Gin `c.PostForm`), which returns the first value of the form
field, or the empty string when it is absent. -/
def RequestContext.formValue (c : RequestContext) (name : GoString) : GoString :=
  (c.form.lookup name).getD []

/-- The zero value of `User`, which `var user User` declares before a bind. -/
def User.zero : User := { ID := 0, Name := [], Email := [] }

/-! ## The handlers of `fiber_v3.go` -/

/-- The calls the handlers of `fiber_v3.go` make on `fiber.Ctx`, one field per
call.  The framework is outside the repository: what a call returns is a
parameter.  `BindBody` stands for `c.Bind().Body(&user)`: from the target before
the call to the target after it and the message of the error (`none` is `nil`). -/
structure Fiber.Ctx where
  Params : GoString → GoString
  Query : GoString → GoString → GoString
  BindBody : User → User × Option GoString
  FormValue : GoString → GoString

namespace Fiber

/-- Closure registered for `GET /`. -/
def rootHandler (_ : Ctx) : Response :=
  ⟨200, Body.text (lit "Hello, World!")⟩

/-- Closure registered for `GET /json`. -/
def jsonHandler (_ : Ctx) : Response :=
  ⟨200, Body.json (encodeMap [
    ("message", JSONValue.str (lit "Hello, World!")),
    ("status", JSONValue.str (lit "success"))])⟩

/-- Closure registered for `GET /user/:id`. -/
def getUserHandler (c : Ctx) : Response :=
  match Atoi (c.Params (lit "id")) with
  | (_, some _) => ⟨400, Body.json (encodeMap [("error", JSONValue.str (lit "Invalid ID"))])⟩
  | (id, none) =>
    let user : User := { ID := id, Name := lit "John Doe", Email := lit "john@example.com" }
    ⟨200, Body.json user.toJSON⟩

/-- Closure registered for `GET /search`. -/
def searchHandler (c : Ctx) : Response :=
  let query := c.Query (lit "q") (lit "default")
  let limit := c.Query (lit "limit") (lit "10")
  ⟨200, Body.json (encodeMap [
    ("query", JSONValue.str query),
    ("limit", JSONValue.str limit),
    ("results", JSONValue.strings [lit "result1", lit "result2", lit "result3"])])⟩

/-- Closure registered for `POST /user`. -/
def postUserHandler (c : Ctx) : Response :=
  match c.BindBody User.zero with
  | (_, some err) => ⟨400, Body.json (encodeMap [("error", JSONValue.str err)])⟩
  | (user, none) =>
    let user := { user with ID := 123 }
    ⟨201, Body.json user.toJSON⟩

/-- Closure registered for `POST /form`. -/
def formHandler (c : Ctx) : Response :=
  let name := c.FormValue (lit "name")
  let email := c.FormValue (lit "email")
  ⟨200, Body.json (encodeMap [
    ("name", JSONValue.str name),
    ("email", JSONValue.str email),
    ("message", JSONValue.str (lit "Form received"))])⟩

/-- Modelled from the spec: the Fiber context of a request, every call
answering by the `RequestContext` contract of the spec. -/
def ctxOf (c : RequestContext) : Ctx :=
  { Params := c.param, Query := c.queryOr, BindBody := fun _ => (c.bound, c.bindErr),
    FormValue := c.formValue }

/-- Handler of `GET /` on a request. -/
def root (c : RequestContext) : Response := rootHandler (ctxOf c)

/-- Handler of `GET /json` on a request. -/
def json (c : RequestContext) : Response := jsonHandler (ctxOf c)

/-- Handler of `GET /user/:id` on a request. -/
def getUser (c : RequestContext) : Response := getUserHandler (ctxOf c)

/-- Handler of `GET /search` on a request. -/
def search (c : RequestContext) : Response := searchHandler (ctxOf c)

/-- Handler of `POST /user` on a request. -/
def postUser (c : RequestContext) : Response := postUserHandler (ctxOf c)

/-- Handler of `POST /form` on a request. -/
def form (c : RequestContext) : Response := formHandler (ctxOf c)

end Fiber

/-! ## The handlers of `gin_server.go` -/

/-- The calls the handlers of `gin_server.go` make on `*gin.Context`, one field
per call.  The framework is outside the repository: what a call returns is a
parameter.  `ShouldBindJSON` stands for `c.ShouldBindJSON(&user)`: from the
target before the call to the target after it and the message of the error
(`none` is `nil`). -/
structure Gin.Context where
  Param : GoString → GoString
  DefaultQuery : GoString → GoString → GoString
  ShouldBindJSON : User → User × Option GoString
  PostForm : GoString → GoString

namespace Gin

/-- Closure registered for `GET /`. -/
def rootHandler (_ : Context) : Response :=
  ⟨200, Body.text (lit "Hello, World!")⟩

/-- Closure registered for `GET /json`. -/
def jsonHandler (_ : Context) : Response :=
  ⟨200, Body.json (encodeMap [
    ("message", JSONValue.str (lit "Hello, World!")),
    ("status", JSONValue.str (lit "success"))])⟩

/-- Closure registered for `GET /user/:id`. -/
def getUserHandler (c : Context) : Response :=
  let idStr := c.Param (lit "id")
  match Atoi idStr with
  | (_, some _) => ⟨400, Body.json (encodeMap [("error", JSONValue.str (lit "Invalid ID"))])⟩
  | (id, none) =>
    let user : User := { ID := id, Name := lit "John Doe", Email := lit "john@example.com" }
    ⟨200, Body.json user.toJSON⟩

/-- Closure registered for `GET /search`. -/
def searchHandler (c : Context) : Response :=
  let query := c.DefaultQuery (lit "q") (lit "default")
  let limitStr := c.DefaultQuery (lit "limit") (lit "10")
  let limit := (Atoi limitStr).1
  ⟨200, Body.json (encodeMap [
    ("query", JSONValue.str query),
    ("limit", JSONValue.int limit),
    ("results", JSONValue.strings [lit "result1", lit "result2", lit "result3"])])⟩

/-- Closure registered for `POST /user`. -/
def postUserHandler (c : Context) : Response :=
  match c.ShouldBindJSON User.zero with
  | (_, some err) => ⟨400, Body.json (encodeMap [("error", JSONValue.str err)])⟩
  | (user, none) =>
    let user := { user with ID := 123 }
    ⟨201, Body.json user.toJSON⟩

/-- Closure registered for `POST /form`. -/
def formHandler (c : Context) : Response :=
  let name := c.PostForm (lit "name")
  let email := c.PostForm (lit "email")
  ⟨200, Body.json (encodeMap [
    ("name", JSONValue.str name),
    ("email", JSONValue.str email),
    ("message", JSONValue.str (lit "Form received"))])⟩

/-- Modelled from the spec: the Gin context of a request, every call answering
by the `RequestContext` contract of the spec. -/
def ctxOf (c : RequestContext) : Context :=
  { Param := c.param, DefaultQuery := c.queryOr,
    ShouldBindJSON := fun _ => (c.bound, c.bindErr), PostForm := c.formValue }

/-- Handler of `GET /` on a request. -/
def root (c : RequestContext) : Response := rootHandler (ctxOf c)

/-- Handler of `GET /json` on a request. -/
def json (c : RequestContext) : Response := jsonHandler (ctxOf c)

/-- Handler of `GET /user/:id` on a request. -/
def getUser (c : RequestContext) : Response := getUserHandler (ctxOf c)

/-- Handler of `GET /search` on a request. -/
def search (c : RequestContext) : Response := searchHandler (ctxOf c)

/-- Handler of `POST /user` on a request. -/
def postUser (c : RequestContext) : Response := postUserHandler (ctxOf c)

/-- Handler of `POST /form` on a request. -/
def form (c : RequestContext) : Response := formHandler (ctxOf c)

end Gin

/-! ## The router -/

/-- Modelled from the spec: a segment of a `RoutePattern`, either a literal or
a named parameter marker.  The router is framework code that the repository
only calls. -/
inductive Segment where
  | literal (text : GoString)
  | param (name : GoString)
  deriving DecidableEq, Repr

/-- Modelled from the spec: a `RoutePattern`, an ordered sequence of segments. -/
abbrev RoutePattern := List Segment

/-- Modelled from the spec: `ParamBindings`, the names bound by a match. -/
abbrev ParamBindings := List (GoString × GoString)

/-- Modelled from the spec: a `Route` record of the `RouteTable`. -/
structure Route (H : Type) where
  method : GoString
  pattern : RoutePattern
  handler : H

/-- Modelled from the spec: the pieces of a text between slashes. -/
def splitOnSlash : GoString → List GoString
  | [] => [[]]
  | c :: rest =>
    match splitOnSlash rest with
    | [] => if c = 47 then [[], []] else [[c]]
    | seg :: segs => if c = 47 then [] :: seg :: segs else (c :: seg) :: segs

/-- Modelled from the spec: the segments of a path, split on `/`, ignoring a
leading and a trailing empty segment. -/
def pathSegments (path : GoString) : List GoString :=
  let segs := splitOnSlash path
  let segs := if segs.head? = some [] then segs.tail else segs
  if segs.getLast? = some [] then segs.dropLast else segs

/-- Modelled from the spec: parsing of a pattern string; a segment that
begins with the marker `:` is a parameter named by the remainder. -/
def parsePattern (pattern : GoString) : RoutePattern :=
  (pathSegments pattern).map (fun seg =>
    match seg with
    | 58 :: name => Segment.param name
    | _ => Segment.literal seg)

/-- Modelled from the spec: segment-by-segment comparison of a pattern with
the segments of a path.  A literal must be equal, a parameter matches any
non-empty segment and binds it. -/
def matchSegments : RoutePattern → List GoString → Option ParamBindings
  | [], [] => some []
  | Segment.literal text :: ps, seg :: segs =>
    if text = seg then matchSegments ps segs else none
  | Segment.param name :: ps, seg :: segs =>
    if seg = [] then none
    else (matchSegments ps segs).map (fun b => (name, seg) :: b)
  | _, _ => none

/-- Modelled from the spec: a route matches a request when the methods are
equal and the pattern matches the path. -/
def Route.matches {H : Type} (r : Route H) (method path : GoString) : Option ParamBindings :=
  if r.method = method then matchSegments r.pattern (pathSegments path) else none

/-- Modelled from the spec: `Router.match`, which walks the table in
registration order and returns the first route that matches, with its
bindings. -/
def resolve {H : Type} : List (Route H) → GoString → GoString → Option (H × ParamBindings)
  | [], _, _ => none
  | r :: rest, method, path =>
    match r.matches method path with
    | some b => some (r.handler, b)
    | none => resolve rest method path

/-- Modelled from the spec: `Router.register`, which parses the pattern and
appends the route to the table. -/
def register {H : Type} (table : List (Route H)) (method pattern : GoString) (handler : H) :
    List (Route H) :=
  table ++ [{ method := method, pattern := parsePattern pattern, handler := handler }]

/-- Two patterns have the same segment shape: equal segment count and the
same kind of segment at every position. -/
def sameShape : RoutePattern → RoutePattern → Bool
  | [], [] => true
  | Segment.literal _ :: ps, Segment.literal _ :: qs => sameShape ps qs
  | Segment.param _ :: ps, Segment.param _ :: qs => sameShape ps qs
  | _, _ => false

/-- The route table of `fiber_v3.go`, in registration order. -/
def Fiber.routes : List (Route (RequestContext → Response)) :=
  register (register (register (register (register (register []
    (lit "GET") (lit "/") Fiber.root)
    (lit "GET") (lit "/json") Fiber.json)
    (lit "GET") (lit "/user/:id") Fiber.getUser)
    (lit "GET") (lit "/search") Fiber.search)
    (lit "POST") (lit "/user") Fiber.postUser)
    (lit "POST") (lit "/form") Fiber.form

/-- The route table of `gin_server.go`, in registration order. -/
def Gin.routes : List (Route (RequestContext → Response)) :=
  register (register (register (register (register (register []
    (lit "GET") (lit "/") Gin.root)
    (lit "GET") (lit "/json") Gin.json)
    (lit "GET") (lit "/user/:id") Gin.getUser)
    (lit "GET") (lit "/search") Gin.search)
    (lit "POST") (lit "/user") Gin.postUser)
    (lit "POST") (lit "/form") Gin.form

/-! ## Request contexts used as concrete inputs -/

/-- A request whose only content is the path parameter `id`. -/
def ctxWithId (id : GoString) : RequestContext :=
  { params := [(lit "id", id)], query := [], form := [], bound := User.zero, bindErr := none }

/-- A request whose only content is its query mapping. -/
def ctxWithQuery (query : List (GoString × GoString)) : RequestContext :=
  { params := [], query := query, form := [], bound := User.zero, bindErr := none }

/-- A request whose only content is its form fields. -/
def ctxWithForm (form : List (GoString × GoString)) : RequestContext :=
  { params := [], query := [], form := form, bound := User.zero, bindErr := none }

/-- A request whose only content is the outcome of binding its body. -/
def ctxWithBody (bound : User) (bindErr : Option GoString) : RequestContext :=
  { params := [], query := [], form := [], bound := bound, bindErr := bindErr }

/-! ## Decimal numerals: the vocabulary of the statements -/

/-- An ASCII decimal digit. -/
def isDigit (b : Nat) : Bool := decide (48 ≤ b) && decide (b ≤ 57)

/-- The value of a run of digit bytes read most significant first, continuing
from `acc`. -/
def accValue (acc : Nat) (bs : List Nat) : Nat :=
  bs.foldl (fun a c => a * 10 + (c - 48)) acc

/-- The text after the optional leading sign. -/
def unsignedPart (s : GoString) : GoString :=
  if s.head? = some 43 ∨ s.head? = some 45 then s.tail else s

/-- The text is an optional sign followed by one or more decimal digits. -/
def isIntSyntax (s : GoString) : Prop :=
  unsignedPart s ≠ [] ∧ ∀ b ∈ unsignedPart s, isDigit b = true

instance (s : GoString) : Decidable (isIntSyntax s) := by
  unfold isIntSyntax; infer_instance

/-- The integer a numeral denotes. -/
def intValue (s : GoString) : Int :=
  if s.head? = some 45 then -(accValue 0 (unsignedPart s) : Int) else (accValue 0 (unsignedPart s) : Int)

/-- The text is a base-10 integer in the 64-bit signed range. -/
def validInt (s : GoString) : Prop :=
  isIntSyntax s ∧ -(2 : Int) ^ 63 ≤ intValue s ∧ intValue s < (2 : Int) ^ 63

instance (s : GoString) : Decidable (validInt s) := by
  unfold validInt; infer_instance

/-- The leading run of digits of a text. -/
def digitRun (bs : List Nat) : List Nat := bs.takeWhile isDigit

/-- The decimal digits of a natural number, least significant first; `fuel`
bounds the number of digits. -/
def natDigitsRev : Nat → Nat → List Nat
  | 0, _ => []
  | fuel + 1, m => if m = 0 then [] else (m % 10 + 48) :: natDigitsRev fuel (m / 10)

/-- The decimal text of a natural number. -/
def natText (m : Nat) : GoString :=
  if m = 0 then [48] else (natDigitsRev m m).reverse

/-- The decimal text of an integer: a minus sign for a negative one, then the
digits of its magnitude without leading zeros. -/
def decimalText (n : Int) : GoString :=
  if n < 0 then 45 :: natText n.natAbs else natText n.natAbs

/-- The saturated result of `ParseInt` on a range error. -/
def clampInt64 (neg : Bool) : Int := if neg then -(2 : Int) ^ 63 else (2 : Int) ^ 63 - 1

/-- The text starts with a minus sign. -/
def isNeg (s : GoString) : Bool := decide (s.head? = some 45)

/-- The function `Atoi` in closed form: the value of a numeral in range; the
saturated bound with a range error for a numeral out of range and for any text
whose leading run of digits exceeds 64 bits; zero with a syntax error
otherwise. -/
def atoiSpec (s : GoString) : Int × Option NumError :=
  if validInt s then (intValue s, none)
  else if 2 ^ 64 ≤ accValue 0 (digitRun (unsignedPart s)) ∨ isIntSyntax s then
    (clampInt64 (isNeg s), some (rangeError "Atoi" s))
  else (0, some (syntaxError "Atoi" s))

/-! ## Evaluation of the model on concrete inputs -/

example : Atoi (lit "42") = (42, none) := by decide
example : Atoi (lit "-42") = (-42, none) := by decide
example : (Atoi (lit "abc")).2 = some (syntaxError "Atoi" (lit "abc")) := by decide
example : Atoi (lit "9223372036854775807") = (9223372036854775807, none) := by decide
example : Atoi (lit "-9223372036854775808") = (-9223372036854775808, none) := by decide
example : Atoi (lit "9223372036854775808") = (9223372036854775807, some (rangeError "Atoi" (lit "9223372036854775808"))) := by decide
example : Atoi (lit "99999999999999999999x") = (9223372036854775807, some (rangeError "Atoi" (lit "99999999999999999999x"))) := by decide
example : Atoi (lit "9999999999999999999x") = (0, some (syntaxError "Atoi" (lit "9999999999999999999x"))) := by decide
example : Atoi (lit "") = (0, some (syntaxError "Atoi" (lit ""))) := by decide
example : Atoi (lit "+") = (0, some (syntaxError "Atoi" (lit "+"))) := by decide

example (a b c : JSONValue) : encodeMap [("query", a), ("limit", b), ("results", c)] =
    [("limit", b), ("query", a), ("results", c)] := by
  rfl
example (a b c : JSONValue) : encodeMap [("query", a), ("limit", b), ("results", c)] =
    [("limit", b), ("query", a), ("results", c)] := by
  simp [encodeMap, insertField, bytesLE, lit]
example : decimalText 42 = lit "42" := by decide
example : decimalText (-9223372036854775808) = lit "-9223372036854775808" := by decide
example : decimalText 0 = lit "0" := by decide
example : pathSegments (lit "/user/42") = [lit "user", lit "42"] := by decide
example : pathSegments (lit "/") = [] := by decide
example : parsePattern (lit "/user/:id") = [Segment.literal (lit "user"), Segment.param (lit "id")] := by
  decide
example : (resolve Fiber.routes (lit "GET") (lit "/user/42")).map (fun r => r.2) =
    some [(lit "id", lit "42")] := by decide
example : (resolve Gin.routes (lit "GET") (lit "/nothing")).map (fun r => r.2) = none := by decide

/-! ## Lemmas on the digit loops -/

theorem accValue_cons (acc c : Nat) (bs : List Nat) :
    accValue acc (c :: bs) = accValue (acc * 10 + (c - 48)) bs := rfl

theorem accValue_nil (acc : Nat) : accValue acc [] = acc := rfl

theorem accValue_mono (bs : List Nat) : ∀ acc, acc ≤ accValue acc bs := by
  induction bs with
  | nil => intro acc; exact Nat.le_refl _
  | cons c bs ih =>
    intro acc
    rw [accValue_cons]
    have := ih (acc * 10 + (c - 48))
    omega

theorem accValue_append (xs ys : List Nat) (acc : Nat) :
    accValue acc (xs ++ ys) = accValue (accValue acc xs) ys := by
  simp [accValue, List.foldl_append]

theorem accValue_bound (bs : List Nat) (hd : ∀ b ∈ bs, isDigit b = true) :
    ∀ acc, accValue acc bs + 1 ≤ (acc + 1) * 10 ^ bs.length := by
  induction bs with
  | nil => intro acc; simp [accValue]
  | cons c bs ih =>
    intro acc
    rw [accValue_cons]
    have hc : isDigit c = true := hd c (List.mem_cons_self _ _)
    simp only [isDigit, Bool.and_eq_true, decide_eq_true_eq] at hc
    have h1 := ih (fun b hb => hd b (List.mem_cons_of_mem _ hb)) (acc * 10 + (c - 48))
    have h2 : (acc * 10 + (c - 48) + 1) ≤ (acc + 1) * 10 := by omega
    calc accValue (acc * 10 + (c - 48)) bs + 1
        ≤ (acc * 10 + (c - 48) + 1) * 10 ^ bs.length := h1
      _ ≤ ((acc + 1) * 10) * 10 ^ bs.length := Nat.mul_le_mul_right _ h2
      _ = (acc + 1) * 10 ^ (c :: bs).length := by
          rw [List.length_cons, pow_succ]; ring

theorem accValue_lt_pow18 (bs : List Nat) (hd : ∀ b ∈ bs, isDigit b = true)
    (hlen : bs.length ≤ 18) : accValue 0 bs < 10 ^ 18 := by
  have h := accValue_bound bs hd 0
  have h2 : 10 ^ bs.length ≤ 10 ^ 18 := Nat.pow_le_pow_right (by decide) hlen
  omega

theorem wrapInt64_of_range (x : Int) (h1 : -(2 : Int) ^ 63 ≤ x) (h2 : x < (2 : Int) ^ 63) :
    wrapInt64 x = x := by
  unfold wrapInt64
  norm_num at h1 h2 ⊢
  omega

theorem atoiFastLoop_digits (bs : List Nat) (hd : ∀ b ∈ bs, isDigit b = true) :
    ∀ acc : Nat, accValue acc bs < 2 ^ 63 →
      atoiFastLoop bs (acc : Int) = some ((accValue acc bs : Nat) : Int) := by
  induction bs with
  | nil => intro acc _; rfl
  | cons c bs ih =>
    intro acc hv
    have hc : isDigit c = true := hd c (List.mem_cons_self _ _)
    simp only [isDigit, Bool.and_eq_true, decide_eq_true_eq] at hc
    rw [accValue_cons] at hv ⊢
    have hm := accValue_mono bs (acc * 10 + (c - 48))
    have hlt : acc * 10 + (c - 48) < 2 ^ 63 := lt_of_le_of_lt hm hv
    have hb : (c + 256 - 48) % 256 = c - 48 := by omega
    have hnot : ¬ ((c + 256 - 48) % 256 > 9) := by omega
    have hw : wrapInt64 ((acc : Int) * 10 + ((c + 256 - 48) % 256 : Nat)) =
        ((acc * 10 + (c - 48) : Nat) : Int) := by
      rw [hb]
      have : ((acc : Int) * 10 + ((c - 48 : Nat) : Int)) = ((acc * 10 + (c - 48) : Nat) : Int) := by
        push_cast; ring
      rw [this]
      apply wrapInt64_of_range
      · have : (0 : Int) ≤ ((acc * 10 + (c - 48) : Nat) : Int) := Int.ofNat_nonneg _
        norm_num at this ⊢; omega
      · norm_num at hlt ⊢; omega
    simp only [atoiFastLoop, hnot, if_false]
    rw [hw]
    exact ih (fun b hb => hd b (List.mem_cons_of_mem _ hb)) _ hv

theorem atoiFastLoop_nondigit (bs : List Nat) (hwf : ∀ b ∈ bs, b < 256)
    (hnd : ∃ b ∈ bs, isDigit b = false) : ∀ acc : Int, atoiFastLoop bs acc = none := by
  induction bs with
  | nil => obtain ⟨b, hb, _⟩ := hnd; simp at hb
  | cons c bs ih =>
    intro acc
    have hc256 := hwf c (List.mem_cons_self _ _)
    by_cases hc : isDigit c = true
    · simp only [isDigit, Bool.and_eq_true, decide_eq_true_eq] at hc
      have hnot : ¬ ((c + 256 - 48) % 256 > 9) := by omega
      simp only [atoiFastLoop, hnot, if_false]
      apply ih (fun b hb => hwf b (List.mem_cons_of_mem _ hb))
      obtain ⟨b, hb, hbd⟩ := hnd
      rcases List.mem_cons.mp hb with rfl | hb
      · simp [isDigit] at hbd; omega
      · exact ⟨b, hb, hbd⟩
    · simp only [isDigit, Bool.and_eq_true, decide_eq_true_eq] at hc
      have hgt : (c + 256 - 48) % 256 > 9 := by omega
      simp only [atoiFastLoop, hgt, if_true]

theorem digitRun_cons_digit (c : Nat) (bs : List Nat) (h : isDigit c = true) :
    digitRun (c :: bs) = c :: digitRun bs := by
  simp [digitRun, List.takeWhile, h]

theorem digitRun_cons_nondigit (c : Nat) (bs : List Nat) (h : isDigit c = false) :
    digitRun (c :: bs) = [] := by
  simp [digitRun, List.takeWhile, h]

/-- The digit loop of `ParseUint`, in closed form: a range error as soon as the
leading run of digits exceeds 64 bits, else the value when every byte is a
digit, else a syntax error. -/
theorem parseUintLoop_eq (s0 : GoString) (bs : List Nat) :
    ∀ acc, acc < 2 ^ 64 →
      parseUintLoop s0 bs acc =
        if 2 ^ 64 ≤ accValue acc (digitRun bs) then (2 ^ 64 - 1, some (rangeError "ParseUint" s0))
        else if digitRun bs = bs then (accValue acc bs, none)
        else (0, some (syntaxError "ParseUint" s0)) := by
  induction bs with
  | nil =>
    intro acc hacc
    have : ¬ (2 ^ 64 ≤ accValue acc (digitRun [])) := by
      simp only [digitRun, List.takeWhile, accValue_nil]; omega
    rw [if_neg this]
    simp [parseUintLoop, digitRun, accValue]
  | cons c bs ih =>
    intro acc hacc
    by_cases hc : isDigit c = true
    · rw [digitRun_cons_digit c bs hc, accValue_cons, accValue_cons]
      simp only [isDigit, Bool.and_eq_true, decide_eq_true_eq] at hc
      have hd : ¬ (c - 48 ≥ 10) := by omega
      by_cases hcut : acc ≥ maxUint64 / 10 + 1
      · have hm := accValue_mono (digitRun bs) (acc * 10 + (c - 48))
        have hov : 2 ^ 64 ≤ accValue (acc * 10 + (c - 48)) (digitRun bs) := by
          simp only [maxUint64] at hcut
          norm_num at hcut ⊢
          omega
        rw [if_pos hov]
        simp [parseUintLoop, hc, hd, hcut, wrapUint64, intSize]
      · have hcut2 : acc * 10 + 9 < 2 ^ 64 + 4 := by
          simp only [maxUint64] at hcut
          norm_num at hcut ⊢
          omega
        have hn10 : wrapUint64 (acc * 10) = acc * 10 := by
          unfold wrapUint64; apply Nat.mod_eq_of_lt; norm_num at hcut2 ⊢; omega
        by_cases hov : 2 ^ 64 ≤ acc * 10 + (c - 48)
        · have hm := accValue_mono (digitRun bs) (acc * 10 + (c - 48))
          have hov2 : 2 ^ 64 ≤ accValue (acc * 10 + (c - 48)) (digitRun bs) := le_trans hov hm
          have hwrap : wrapUint64 (acc * 10 + (c - 48)) < acc * 10 := by
            unfold wrapUint64; norm_num at hov hcut2 ⊢; omega
          rw [if_pos hov2]
          simp [parseUintLoop, hc, hd, hcut, hn10, hwrap, intSize]
          simp [wrapUint64]
        · have hlt : acc * 10 + (c - 48) < 2 ^ 64 := by omega
          have hn1 : wrapUint64 (acc * 10 + (c - 48)) = acc * 10 + (c - 48) := by
            unfold wrapUint64; exact Nat.mod_eq_of_lt hlt
          have h1 : ¬ (acc * 10 + (c - 48) < acc * 10) := by omega
          have h2 : ¬ (acc * 10 + (c - 48) > (wrapUint64 (2 ^ intSize) + 2 ^ 64 - 1) % 2 ^ 64) := by
            simp only [wrapUint64, intSize]; norm_num at hlt ⊢; omega
          have hih := ih (acc * 10 + (c - 48)) hlt
          simp only [parseUintLoop, hc, hd, hcut, hn10, hn1, h1, h2, and_self, if_true, if_false,
            or_self]
          rw [hih]
          simp
    · have hc2 : isDigit c = false := by simpa using hc
      rw [digitRun_cons_nondigit c bs hc2, accValue_nil]
      simp only [isDigit, Bool.and_eq_true, decide_eq_true_eq] at hc
      have hacc2 : ¬ (2 ^ 64 ≤ acc) := by omega
      by_cases hl : 97 ≤ lower c ∧ lower c ≤ 122
      · have hd : wrapByte ((lower c : Int) - 97 + 10) ≥ 10 := by
          unfold wrapByte; omega
        rw [if_neg hacc2]
        simp [parseUintLoop, hc, hl, hd]
      · rw [if_neg hacc2]
        simp [parseUintLoop, hc, hl]

theorem digitRun_eq_self_iff (bs : List Nat) :
    digitRun bs = bs ↔ ∀ b ∈ bs, isDigit b = true := by
  induction bs with
  | nil => simp [digitRun]
  | cons c bs ih =>
    by_cases hc : isDigit c = true
    · rw [digitRun_cons_digit c bs hc]
      simp [ih, hc]
    · have hc2 : isDigit c = false := by simpa using hc
      rw [digitRun_cons_nondigit c bs hc2]
      simp [hc2]

theorem digitRun_digits (bs : List Nat) : ∀ b ∈ digitRun bs, isDigit b = true := by
  intro b hb
  exact List.mem_takeWhile_imp hb

theorem digitRun_length_le (bs : List Nat) : (digitRun bs).length ≤ bs.length := by
  induction bs with
  | nil => simp [digitRun]
  | cons c bs ih =>
    by_cases hc : isDigit c = true
    · rw [digitRun_cons_digit c bs hc]; simpa using ih
    · have hc2 : isDigit c = false := by simpa using hc
      rw [digitRun_cons_nondigit c bs hc2]; simp

theorem ParseInt_eq (s : GoString) (hb : unsignedPart s ≠ []) :
    ParseInt s =
      if 2 ^ 64 ≤ accValue 0 (digitRun (unsignedPart s)) then
        (clampInt64 (isNeg s), some (rangeError "ParseInt" s))
      else if digitRun (unsignedPart s) = unsignedPart s then
        if (isNeg s = false ∧ accValue 0 (unsignedPart s) ≥ 2 ^ 63) ∨
            (isNeg s = true ∧ accValue 0 (unsignedPart s) > 2 ^ 63) then
          (clampInt64 (isNeg s), some (rangeError "ParseInt" s))
        else (intValue s, none)
      else (0, some (syntaxError "ParseInt" s)) := by
  have hs : s ≠ [] := by
    intro h; subst h; simp [unsignedPart] at hb
  have hstrip : (if s.head? = some 43 then s.tail else if s.head? = some 45 then s.tail else s) =
      unsignedPart s := by
    unfold unsignedPart
    by_cases h1 : s.head? = some 43 <;> by_cases h2 : s.head? = some 45 <;> simp [h1, h2]
  have hloop := parseUintLoop_eq (unsignedPart s) (unsignedPart s) 0 (by norm_num)
  unfold ParseInt
  simp only [hs, if_false, hstrip, ParseUint, hb]
  rw [hloop]
  by_cases hov : 2 ^ 64 ≤ accValue 0 (digitRun (unsignedPart s))
  · rw [if_pos hov, if_pos hov]
    by_cases hn : s.head? = some 45
    · simp [hn, isNeg, clampInt64, rangeError, Option.filter, wrapUint64, wrapInt64, intSize]
    · simp [hn, isNeg, clampInt64, rangeError, Option.filter, wrapUint64, wrapInt64, intSize]
  · rw [if_neg hov, if_neg hov]
    by_cases hall : digitRun (unsignedPart s) = unsignedPart s
    · rw [if_pos hall, if_pos hall]
      rw [hall] at hov
      by_cases hn : s.head? = some 45
      · by_cases hr : 9223372036854775808 < accValue 0 (unsignedPart s)
        · simp [hn, isNeg, clampInt64, rangeError, Option.filter, wrapUint64, wrapInt64, intSize, hr]
        · have hw : wrapInt64 (-wrapInt64 ((accValue 0 (unsignedPart s) : Nat) : Int)) =
              -((accValue 0 (unsignedPart s) : Nat) : Int) := by
            unfold wrapInt64
            norm_num at hr ⊢
            omega
          simp [hn, isNeg, Option.filter, wrapUint64, intSize, hr, hw, intValue]
      · by_cases hr : 9223372036854775808 ≤ accValue 0 (unsignedPart s)
        · simp [hn, isNeg, clampInt64, rangeError, Option.filter, wrapUint64, wrapInt64, intSize, hr]
        · have hw : wrapInt64 ((accValue 0 (unsignedPart s) : Nat) : Int) =
              ((accValue 0 (unsignedPart s) : Nat) : Int) := by
            unfold wrapInt64
            norm_num at hr ⊢
            omega
          simp [hn, isNeg, Option.filter, wrapUint64, intSize, hr, hw, intValue]
    · rw [if_neg hall, if_neg hall]
      simp [syntaxError, Option.filter]

theorem unsignedPart_length_le (s : GoString) : (unsignedPart s).length ≤ s.length := by
  unfold unsignedPart
  split
  · simp
  · exact Nat.le_refl _

theorem length_le_unsignedPart (s : GoString) : s.length ≤ (unsignedPart s).length + 1 := by
  unfold unsignedPart
  split
  · cases s <;> simp
  · omega

theorem unsignedPart_wf (s : GoString) (h : s.wellFormed) : ∀ b ∈ unsignedPart s, b < 256 := by
  intro b hb
  unfold unsignedPart at hb
  split at hb
  · exact h b (List.mem_of_mem_tail hb)
  · exact h b hb

theorem unsignedPart_ne_nil_of_unsigned (s : GoString) (hs : s ≠ [])
    (h : ¬ (s.head? = some 45 ∨ s.head? = some 43)) : unsignedPart s ≠ [] := by
  have : ¬ (s.head? = some 43 ∨ s.head? = some 45) := fun h2 => h (Or.symm h2)
  simp [unsignedPart, this, hs]

theorem Atoi_fast (s : GoString) (hwf : s.wellFormed) (h0 : 0 < s.length)
    (h19 : s.length < 19) : Atoi s = atoiSpec s := by
  have hs : s ≠ [] := by intro h; subst h; simp at h0
  have hstrip : (if s.head? = some 45 ∨ s.head? = some 43 then s.tail else s) = unsignedPart s := by
    unfold unsignedPart
    by_cases h1 : s.head? = some 43 <;> by_cases h2 : s.head? = some 45 <;> simp [h1, h2]
  have hlen := unsignedPart_length_le s
  have hrun := digitRun_length_le (unsignedPart s)
  have hrunv := accValue_lt_pow18 (digitRun (unsignedPart s)) (digitRun_digits _) (by omega)
  have hnov : ¬ (2 ^ 64 ≤ accValue 0 (digitRun (unsignedPart s))) := by
    norm_num at hrunv ⊢; omega
  unfold Atoi
  simp only [intSize, h0, h19, hstrip, and_self, and_true, true_and, if_true]
  norm_num only [if_true, or_true, false_and, false_or, true_or, if_false]
  by_cases hall : ∀ b ∈ unsignedPart s, isDigit b = true
  · by_cases hne : unsignedPart s = []
    · have hsig : s.head? = some 45 ∨ s.head? = some 43 := by
        by_contra hc
        exact unsignedPart_ne_nil_of_unsigned s hs hc hne
      have hsyn : ¬ isIntSyntax s := fun h => h.1 hne
      have hval : ¬ validInt s := fun h => hsyn h.1
      simp only [atoiSpec, hval, hsyn, hnov, or_self, if_false]
      simp [hsig, hne]
    · have hv := accValue_lt_pow18 (unsignedPart s) hall (by omega)
      have hloop := atoiFastLoop_digits (unsignedPart s) hall 0 (by norm_num at hv ⊢; omega)
      push_cast at hloop
      have hsyn : isIntSyntax s := ⟨hne, hall⟩
      have hlenpos : ¬ ((unsignedPart s).length < 1) := by
        cases hu : unsignedPart s with
        | nil => exact absurd hu hne
        | cons a t => simp
      have hvI : ((accValue 0 (unsignedPart s) : Nat) : Int) < 10 ^ 18 := by exact_mod_cast hv
      have hv0 : (0 : Int) ≤ ((accValue 0 (unsignedPart s) : Nat) : Int) := Int.ofNat_nonneg _
      have hvalid : validInt s := by
        refine ⟨hsyn, ?_, ?_⟩
        · unfold intValue; split <;> (norm_num at hvI ⊢; omega)
        · unfold intValue; split <;> (norm_num at hvI ⊢; omega)
      simp only [atoiSpec, hvalid, if_true, hlenpos, and_false, if_false, hloop]
      unfold intValue
      by_cases hn : s.head? = some 45
      · have hw : wrapInt64 (-((accValue 0 (unsignedPart s) : Nat) : Int)) =
            -((accValue 0 (unsignedPart s) : Nat) : Int) := by
          apply wrapInt64_of_range <;> (norm_num at hvI ⊢; omega)
        simp [hn, hw]
      · simp [hn]
  · have hnd : ∃ b ∈ unsignedPart s, isDigit b = false := by
      push_neg at hall
      obtain ⟨b, hb, hbd⟩ := hall
      exact ⟨b, hb, by simpa using hbd⟩
    have hloop := atoiFastLoop_nondigit (unsignedPart s) (unsignedPart_wf s hwf) hnd 0
    have hsyn : ¬ isIntSyntax s := fun h => hall h.2
    have hval : ¬ validInt s := fun h => hsyn h.1
    simp only [atoiSpec, hval, hsyn, hnov, or_self, if_false, hloop]
    split <;> rfl

theorem Atoi_slow (s : GoString) (h : ¬ (0 < s.length ∧ s.length < 19)) :
    Atoi s = atoiSpec s := by
  have hsl : ¬ (intSize = 32 ∧ (0 < s.length ∧ s.length < 10) ∨
      intSize = 64 ∧ (0 < s.length ∧ s.length < 19)) := by
    simp only [intSize]; omega
  unfold Atoi
  simp only [hsl, if_false]
  by_cases hs : s = []
  · subst hs; decide
  · have hlen : 19 ≤ s.length := by
      have : 0 < s.length := List.length_pos.mpr hs
      omega
    have hb : unsignedPart s ≠ [] := by
      intro hb
      have := length_le_unsignedPart s
      rw [hb] at this
      simp at this
      omega
    rw [ParseInt_eq s hb]
    have hv0 : (0 : Int) ≤ ((accValue 0 (unsignedPart s) : Nat) : Int) := Int.ofNat_nonneg _
    by_cases hov : 2 ^ 64 ≤ accValue 0 (digitRun (unsignedPart s))
    · have hval : ¬ validInt s := by
        rintro ⟨⟨_, hd⟩, h1, h2⟩
        rw [(digitRun_eq_self_iff _).mpr hd] at hov
        have hovI : (2 : Int) ^ 64 ≤ ((accValue 0 (unsignedPart s) : Nat) : Int) := by
          exact_mod_cast hov
        unfold intValue at h1 h2
        split at h1 <;> simp_all <;> omega
      rw [if_pos hov]
      simp only [atoiSpec, hval, hov, true_or, if_true, if_false]
      rfl
    · rw [if_neg hov]
      by_cases hall : digitRun (unsignedPart s) = unsignedPart s
      · rw [if_pos hall]
        have hsyn : isIntSyntax s := ⟨hb, (digitRun_eq_self_iff _).mp hall⟩
        by_cases hr : (isNeg s = false ∧ accValue 0 (unsignedPart s) ≥ 2 ^ 63) ∨
            (isNeg s = true ∧ accValue 0 (unsignedPart s) > 2 ^ 63)
        · have hval : ¬ validInt s := by
            rintro ⟨_, h1, h2⟩
            unfold intValue at h1 h2
            unfold isNeg at hr
            rcases hr with ⟨hn, hge⟩ | ⟨hn, hgt⟩
            · have hn2 : ¬ (s.head? = some 45) := by simpa using hn
              have hgeI : (2 : Int) ^ 63 ≤ ((accValue 0 (unsignedPart s) : Nat) : Int) := by
                exact_mod_cast hge
              rw [if_neg hn2] at h2
              omega
            · have hn2 : s.head? = some 45 := by simpa using hn
              have hgtI : (2 : Int) ^ 63 < ((accValue 0 (unsignedPart s) : Nat) : Int) := by
                exact_mod_cast hgt
              rw [if_pos hn2] at h1
              omega
          rw [if_pos hr]
          simp only [atoiSpec, hval, hsyn, or_true, if_true, if_false]
          rfl
        · have hval : validInt s := by
            refine ⟨hsyn, ?_, ?_⟩
            · unfold intValue
              by_cases hn : s.head? = some 45
              · have hle : ¬ (accValue 0 (unsignedPart s) > 2 ^ 63) := by
                  intro hgt; exact hr (Or.inr ⟨by simp [isNeg, hn], hgt⟩)
                have hleI : ((accValue 0 (unsignedPart s) : Nat) : Int) ≤ 2 ^ 63 := by
                  exact_mod_cast Nat.le_of_not_gt hle
                rw [if_pos hn]; omega
              · rw [if_neg hn]
                have : -(2 : Int) ^ 63 ≤ 0 := by norm_num
                omega
            · unfold intValue
              by_cases hn : s.head? = some 45
              · rw [if_pos hn]
                have : (0 : Int) < 2 ^ 63 := by norm_num
                omega
              · have hlt : ¬ (accValue 0 (unsignedPart s) ≥ 2 ^ 63) := by
                  intro hge; exact hr (Or.inl ⟨by simp [isNeg, hn], hge⟩)
                have hltI : ((accValue 0 (unsignedPart s) : Nat) : Int) < 2 ^ 63 := by
                  exact_mod_cast Nat.lt_of_not_ge hlt
                rw [if_neg hn]; exact hltI
          rw [if_neg hr]
          simp only [atoiSpec, hval, if_true]
          rfl
      · rw [if_neg hall]
        have hsyn : ¬ isIntSyntax s := fun h => hall ((digitRun_eq_self_iff _).mpr h.2)
        have hval : ¬ validInt s := fun h => hsyn h.1
        simp only [atoiSpec, hval, hov, hsyn, or_self, if_false]
        rfl

/-- The function `Atoi` computes its closed form on every Go string. -/
theorem Atoi_eq_spec (s : GoString) (hwf : s.wellFormed) : Atoi s = atoiSpec s := by
  by_cases h : 0 < s.length ∧ s.length < 19
  · exact Atoi_fast s hwf h.1 h.2
  · exact Atoi_slow s h

/-! ## The decimal text of an integer is a numeral that denotes it -/

theorem natDigitsRev_digits : ∀ (fuel m : Nat), ∀ b ∈ natDigitsRev fuel m, isDigit b = true := by
  intro fuel
  induction fuel with
  | zero => intro m b hb; simp [natDigitsRev] at hb
  | succ fuel ih =>
    intro m b hb
    unfold natDigitsRev at hb
    split at hb
    · simp at hb
    · rcases List.mem_cons.mp hb with rfl | hb
      · simp only [isDigit, Bool.and_eq_true, decide_eq_true_eq]; omega
      · exact ih _ b hb

theorem natDigitsRev_value : ∀ (fuel m : Nat), m ≤ fuel →
    accValue 0 (natDigitsRev fuel m).reverse = m := by
  intro fuel
  induction fuel with
  | zero => intro m hm; have : m = 0 := by omega
            subst this; simp [natDigitsRev, accValue]
  | succ fuel ih =>
    intro m hm
    unfold natDigitsRev
    split
    · rename_i h0; subst h0; simp [accValue]
    · rename_i h0
      have hdiv : m / 10 ≤ fuel := by omega
      rw [List.reverse_cons, accValue_append, ih (m / 10) hdiv]
      simp only [accValue, List.foldl_cons, List.foldl_nil]
      omega

theorem natDigitsRev_ne_nil (fuel m : Nat) (hm : 0 < m) (hf : 0 < fuel) :
    natDigitsRev fuel m ≠ [] := by
  cases fuel with
  | zero => omega
  | succ fuel =>
    unfold natDigitsRev
    have : ¬ m = 0 := by omega
    simp [this]

theorem natText_digits (m : Nat) : ∀ b ∈ natText m, isDigit b = true := by
  intro b hb
  unfold natText at hb
  split at hb
  · simp at hb; subst hb; decide
  · exact natDigitsRev_digits m m b (List.mem_reverse.mp hb)

theorem natText_ne_nil (m : Nat) : natText m ≠ [] := by
  unfold natText
  split
  · simp
  · rename_i h0
    have := natDigitsRev_ne_nil m m (by omega) (by omega)
    simpa using this

theorem natText_value (m : Nat) : accValue 0 (natText m) = m := by
  unfold natText
  split
  · rename_i h0; subst h0; simp [accValue]
  · exact natDigitsRev_value m m (Nat.le_refl _)

theorem unsignedPart_of_digits (s : GoString) (hd : ∀ b ∈ s, isDigit b = true) :
    unsignedPart s = s ∧ s.head? ≠ some 45 := by
  cases s with
  | nil => simp [unsignedPart]
  | cons c t =>
    have hc : isDigit c = true := hd c (List.mem_cons_self _ _)
    simp only [isDigit, Bool.and_eq_true, decide_eq_true_eq] at hc
    have h1 : c ≠ 43 := by omega
    have h2 : c ≠ 45 := by omega
    simp [unsignedPart, h1, h2]

theorem decimalText_isIntSyntax (n : Int) : isIntSyntax (decimalText n) := by
  unfold decimalText
  split
  · have : unsignedPart (45 :: natText n.natAbs) = natText n.natAbs := by simp [unsignedPart]
    unfold isIntSyntax
    rw [this]
    exact ⟨natText_ne_nil _, natText_digits _⟩
  · have h := unsignedPart_of_digits (natText n.natAbs) (natText_digits _)
    unfold isIntSyntax
    rw [h.1]
    exact ⟨natText_ne_nil _, natText_digits _⟩

theorem decimalText_intValue (n : Int) : intValue (decimalText n) = n := by
  unfold decimalText
  split
  · rename_i hneg
    have : unsignedPart (45 :: natText n.natAbs) = natText n.natAbs := by simp [unsignedPart]
    unfold intValue
    rw [this, natText_value]
    simp only [List.head?_cons, if_true]
    omega
  · rename_i hneg
    have h := unsignedPart_of_digits (natText n.natAbs) (natText_digits _)
    unfold intValue
    rw [h.1, natText_value, if_neg h.2]
    omega

theorem decimalText_validInt (n : Int) (h1 : -(2 : Int) ^ 63 ≤ n) (h2 : n < (2 : Int) ^ 63) :
    validInt (decimalText n) :=
  ⟨decimalText_isIntSyntax n, by rw [decimalText_intValue]; exact h1,
    by rw [decimalText_intValue]; exact h2⟩

theorem validInt_wellFormed (s : GoString) (h : isIntSyntax s) : s.wellFormed := by
  intro b hb
  have hd := h.2
  unfold unsignedPart at hd
  split at hd
  · rename_i hsig
    cases s with
    | nil => simp at hb
    | cons c t =>
      rcases List.mem_cons.mp hb with rfl | hb
      · simp at hsig; omega
      · have := hd b (by simpa using hb)
        simp only [isDigit, Bool.and_eq_true, decide_eq_true_eq] at this; omega
  · have := hd b hb
    simp only [isDigit, Bool.and_eq_true, decide_eq_true_eq] at this; omega

theorem Atoi_of_validInt (s : GoString) (h : validInt s) : Atoi s = (intValue s, none) := by
  rw [Atoi_eq_spec s (validInt_wellFormed s h.1)]
  simp [atoiSpec, h]

theorem Atoi_error_of_not_validInt (s : GoString) (hwf : s.wellFormed) (h : ¬ validInt s) :
    ∃ e, (Atoi s).2 = some e := by
  rw [Atoi_eq_spec s hwf]
  unfold atoiSpec
  rw [if_neg h]
  split
  · exact ⟨_, rfl⟩
  · exact ⟨_, rfl⟩

/-! ## The handlers on what the framework calls return -/

theorem fiber_getUserHandler_ok (c : Fiber.Ctx) (n : Int)
    (h : Atoi (c.Params (lit "id")) = (n, none)) :
    Fiber.getUserHandler c = ⟨200, Body.json [("id", JSONValue.int n),
      ("name", JSONValue.str (lit "John Doe")),
      ("email", JSONValue.str (lit "john@example.com"))]⟩ := by
  simp only [Fiber.getUserHandler, h, User.toJSON]

theorem gin_getUserHandler_ok (c : Gin.Context) (n : Int)
    (h : Atoi (c.Param (lit "id")) = (n, none)) :
    Gin.getUserHandler c = ⟨200, Body.json [("id", JSONValue.int n),
      ("name", JSONValue.str (lit "John Doe")),
      ("email", JSONValue.str (lit "john@example.com"))]⟩ := by
  simp only [Gin.getUserHandler, h, User.toJSON]

theorem fiber_getUserHandler_err (c : Fiber.Ctx) (v : Int) (e : NumError)
    (h : Atoi (c.Params (lit "id")) = (v, some e)) :
    Fiber.getUserHandler c = ⟨400, Body.json [("error", JSONValue.str (lit "Invalid ID"))]⟩ := by
  simp only [Fiber.getUserHandler, h]
  rfl

theorem gin_getUserHandler_err (c : Gin.Context) (v : Int) (e : NumError)
    (h : Atoi (c.Param (lit "id")) = (v, some e)) :
    Gin.getUserHandler c = ⟨400, Body.json [("error", JSONValue.str (lit "Invalid ID"))]⟩ := by
  simp only [Gin.getUserHandler, h]
  rfl

theorem fiber_postUserHandler_ok (c : Fiber.Ctx) (u : User)
    (h : c.BindBody User.zero = (u, none)) :
    Fiber.postUserHandler c = ⟨201, Body.json [("id", JSONValue.int 123),
      ("name", JSONValue.str u.Name), ("email", JSONValue.str u.Email)]⟩ := by
  simp only [Fiber.postUserHandler, h, User.toJSON]

theorem gin_postUserHandler_ok (c : Gin.Context) (u : User)
    (h : c.ShouldBindJSON User.zero = (u, none)) :
    Gin.postUserHandler c = ⟨201, Body.json [("id", JSONValue.int 123),
      ("name", JSONValue.str u.Name), ("email", JSONValue.str u.Email)]⟩ := by
  simp only [Gin.postUserHandler, h, User.toJSON]

theorem fiber_postUserHandler_err (c : Fiber.Ctx) (u : User) (msg : GoString)
    (h : c.BindBody User.zero = (u, some msg)) :
    Fiber.postUserHandler c = ⟨400, Body.json [("error", JSONValue.str msg)]⟩ := by
  simp only [Fiber.postUserHandler, h]
  rfl

theorem gin_postUserHandler_err (c : Gin.Context) (u : User) (msg : GoString)
    (h : c.ShouldBindJSON User.zero = (u, some msg)) :
    Gin.postUserHandler c = ⟨400, Body.json [("error", JSONValue.str msg)]⟩ := by
  simp only [Gin.postUserHandler, h]
  rfl

theorem fiber_ctxOf_bind (c : RequestContext) :
    (Fiber.ctxOf c).BindBody User.zero = (c.bound, c.bindErr) := rfl

theorem gin_ctxOf_bind (c : RequestContext) :
    (Gin.ctxOf c).ShouldBindJSON User.zero = (c.bound, c.bindErr) := rfl

/-! ## The claims -/

/-- C1: for every integer `n` of the 64-bit signed range, both `GET /user/:id`
handlers, given the decimal text of `n` as `:id`, answer 200 with the user
object whose `id` is `n`, whose `name` is `John Doe` and whose `email` is
`john@example.com`; `Atoi` undoes the decimal rendering. -/
theorem getUser_decimalText (c : RequestContext) (n : Int)
    (hlo : -(2 : Int) ^ 63 ≤ n) (hhi : n < (2 : Int) ^ 63)
    (hid : c.param (lit "id") = decimalText n) :
    Fiber.getUser c = ⟨200, Body.json [("id", JSONValue.int n),
        ("name", JSONValue.str (lit "John Doe")),
        ("email", JSONValue.str (lit "john@example.com"))]⟩ ∧
      Gin.getUser c = ⟨200, Body.json [("id", JSONValue.int n),
        ("name", JSONValue.str (lit "John Doe")),
        ("email", JSONValue.str (lit "john@example.com"))]⟩ ∧
      Atoi (decimalText n) = (n, none) := by
  have hA : Atoi (decimalText n) = (n, none) := by
    rw [Atoi_of_validInt _ (decimalText_validInt n hlo hhi), decimalText_intValue]
  have hF : Atoi ((Fiber.ctxOf c).Params (lit "id")) = (n, none) := by
    show Atoi (c.param (lit "id")) = (n, none)
    rw [hid, hA]
  have hG : Atoi ((Gin.ctxOf c).Param (lit "id")) = (n, none) := by
    show Atoi (c.param (lit "id")) = (n, none)
    rw [hid, hA]
  exact ⟨fiber_getUserHandler_ok _ n hF, gin_getUserHandler_ok _ n hG, hA⟩

theorem getUser_decimalText_witness :
    Fiber.getUser (ctxWithId (lit "42")) = ⟨200, Body.json [("id", JSONValue.int 42),
        ("name", JSONValue.str (lit "John Doe")),
        ("email", JSONValue.str (lit "john@example.com"))]⟩ ∧
      Gin.getUser (ctxWithId (lit "42")) = ⟨200, Body.json [("id", JSONValue.int 42),
        ("name", JSONValue.str (lit "John Doe")),
        ("email", JSONValue.str (lit "john@example.com"))]⟩ ∧
      Atoi (decimalText 42) = (42, none) :=
  getUser_decimalText (ctxWithId (lit "42")) 42 (by norm_num) (by norm_num) (by decide)

/-- C2: for every `:id` that is not a base-10 integer of the 64-bit signed
range (not an optional sign followed by one or more digits, or out of range),
both `GET /user/:id` handlers answer 400 with exactly the object
`{"error":"Invalid ID"}`, and never with a user object. -/
theorem getUser_invalid (c : RequestContext)
    (hwf : (c.param (lit "id")).wellFormed) (hbad : ¬ validInt (c.param (lit "id"))) :
    Fiber.getUser c = ⟨400, Body.json [("error", JSONValue.str (lit "Invalid ID"))]⟩ ∧
      Gin.getUser c = ⟨400, Body.json [("error", JSONValue.str (lit "Invalid ID"))]⟩ ∧
      ∀ u : User, (Fiber.getUser c).body ≠ Body.json u.toJSON ∧
        (Gin.getUser c).body ≠ Body.json u.toJSON := by
  obtain ⟨e, he⟩ := Atoi_error_of_not_validInt _ hwf hbad
  rcases hA : Atoi (c.param (lit "id")) with ⟨v, err⟩
  rw [hA] at he
  simp only at he
  subst he
  have hF : Fiber.getUser c = ⟨400, Body.json [("error", JSONValue.str (lit "Invalid ID"))]⟩ :=
    fiber_getUserHandler_err (Fiber.ctxOf c) v e hA
  have hG : Gin.getUser c = ⟨400, Body.json [("error", JSONValue.str (lit "Invalid ID"))]⟩ :=
    gin_getUserHandler_err (Gin.ctxOf c) v e hA
  refine ⟨hF, hG, fun u => ?_⟩
  rw [hF, hG]
  simp [User.toJSON]

theorem getUser_invalid_witness :
    Fiber.getUser (ctxWithId (lit "abc")) =
        ⟨400, Body.json [("error", JSONValue.str (lit "Invalid ID"))]⟩ ∧
      Gin.getUser (ctxWithId (lit "abc")) =
        ⟨400, Body.json [("error", JSONValue.str (lit "Invalid ID"))]⟩ ∧
      ∀ u : User, (Fiber.getUser (ctxWithId (lit "abc"))).body ≠ Body.json u.toJSON ∧
        (Gin.getUser (ctxWithId (lit "abc"))).body ≠ Body.json u.toJSON :=
  getUser_invalid (ctxWithId (lit "abc")) (by decide) (by decide)

/-- C3: for every body that binds successfully, both `POST /user` handlers
answer 201 with the object whose `id` is 123 and whose `name` and `email` are
the bound ones; the id of the body plays no part, so two bodies that differ
only in id get the same response. -/
theorem postUser_created (c : RequestContext) (hok : c.bindErr = none) :
    Fiber.postUser c = ⟨201, Body.json [("id", JSONValue.int 123),
        ("name", JSONValue.str c.bound.Name), ("email", JSONValue.str c.bound.Email)]⟩ ∧
      Gin.postUser c = ⟨201, Body.json [("id", JSONValue.int 123),
        ("name", JSONValue.str c.bound.Name), ("email", JSONValue.str c.bound.Email)]⟩ ∧
      ∀ id : Int,
        Fiber.postUser { c with bound := { c.bound with ID := id } } = Fiber.postUser c ∧
          Gin.postUser { c with bound := { c.bound with ID := id } } = Gin.postUser c := by
  have hF : ∀ c : RequestContext, c.bindErr = none →
      Fiber.postUser c = ⟨201, Body.json [("id", JSONValue.int 123),
        ("name", JSONValue.str c.bound.Name), ("email", JSONValue.str c.bound.Email)]⟩ := by
    intro c hc
    exact fiber_postUserHandler_ok (Fiber.ctxOf c) c.bound (by rw [fiber_ctxOf_bind, hc])
  have hG : ∀ c : RequestContext, c.bindErr = none →
      Gin.postUser c = ⟨201, Body.json [("id", JSONValue.int 123),
        ("name", JSONValue.str c.bound.Name), ("email", JSONValue.str c.bound.Email)]⟩ := by
    intro c hc
    exact gin_postUserHandler_ok (Gin.ctxOf c) c.bound (by rw [gin_ctxOf_bind, hc])
  refine ⟨hF c hok, hG c hok, fun id => ⟨?_, ?_⟩⟩
  · rw [hF c hok, hF { c with bound := { c.bound with ID := id } } hok]
  · rw [hG c hok, hG { c with bound := { c.bound with ID := id } } hok]

theorem postUser_created_witness :
    Fiber.postUser (ctxWithBody ⟨7, lit "Jane", lit "j@x.com"⟩ none) =
        ⟨201, Body.json [("id", JSONValue.int 123), ("name", JSONValue.str (lit "Jane")),
          ("email", JSONValue.str (lit "j@x.com"))]⟩ ∧
      Gin.postUser (ctxWithBody ⟨7, lit "Jane", lit "j@x.com"⟩ none) =
        ⟨201, Body.json [("id", JSONValue.int 123), ("name", JSONValue.str (lit "Jane")),
          ("email", JSONValue.str (lit "j@x.com"))]⟩ ∧
      ∀ id : Int,
        Fiber.postUser (ctxWithBody ⟨id, lit "Jane", lit "j@x.com"⟩ none) =
            Fiber.postUser (ctxWithBody ⟨7, lit "Jane", lit "j@x.com"⟩ none) ∧
          Gin.postUser (ctxWithBody ⟨id, lit "Jane", lit "j@x.com"⟩ none) =
            Gin.postUser (ctxWithBody ⟨7, lit "Jane", lit "j@x.com"⟩ none) :=
  postUser_created (ctxWithBody ⟨7, lit "Jane", lit "j@x.com"⟩ none) rfl

/-- C4, counterexample: when the bind fails with an error whose message is
empty, both `POST /user` handlers answer 400 with an empty `error` field: the
handlers copy the message into the response and check nothing about it. -/
theorem postUser_bindError_counterexample :
    Fiber.postUser (ctxWithBody User.zero (some [])) =
        ⟨400, Body.json [("error", JSONValue.str [])]⟩ ∧
      Gin.postUser (ctxWithBody User.zero (some [])) =
        ⟨400, Body.json [("error", JSONValue.str [])]⟩ := by
  decide

/-- C4, amended: for every body whose binding fails, both `POST /user`
handlers answer 400 with the object whose only field, `error`, is the message
of the bind error exactly as the framework reports it, and so is non-empty
whenever that message is; the status is never 201 and nothing of the partially
bound user reaches the response. -/
theorem postUser_bindError (c : RequestContext) (msg : GoString)
    (herr : c.bindErr = some msg) :
    Fiber.postUser c = ⟨400, Body.json [("error", JSONValue.str msg)]⟩ ∧
      Gin.postUser c = ⟨400, Body.json [("error", JSONValue.str msg)]⟩ ∧
      (Fiber.postUser c).keys = ["error"] ∧ (Gin.postUser c).keys = ["error"] ∧
      (msg ≠ [] → (Fiber.postUser c).field "error" ≠ some (JSONValue.str []) ∧
        (Gin.postUser c).field "error" ≠ some (JSONValue.str [])) ∧
      (Fiber.postUser c).status ≠ 201 ∧ (Gin.postUser c).status ≠ 201 ∧
      ∀ partialUser : User,
        Fiber.postUser { c with bound := partialUser } = Fiber.postUser c ∧
          Gin.postUser { c with bound := partialUser } = Gin.postUser c := by
  have hF : ∀ c : RequestContext, c.bindErr = some msg →
      Fiber.postUser c = ⟨400, Body.json [("error", JSONValue.str msg)]⟩ := by
    intro c hc
    exact fiber_postUserHandler_err (Fiber.ctxOf c) c.bound msg (by rw [fiber_ctxOf_bind, hc])
  have hG : ∀ c : RequestContext, c.bindErr = some msg →
      Gin.postUser c = ⟨400, Body.json [("error", JSONValue.str msg)]⟩ := by
    intro c hc
    exact gin_postUserHandler_err (Gin.ctxOf c) c.bound msg (by rw [gin_ctxOf_bind, hc])
  refine ⟨hF c herr, hG c herr, ?_, ?_, fun hmsg => ⟨?_, ?_⟩, ?_, ?_, fun u => ⟨?_, ?_⟩⟩
  · rw [hF c herr]; rfl
  · rw [hG c herr]; rfl
  · rw [hF c herr]; simpa [Response.field] using hmsg
  · rw [hG c herr]; simpa [Response.field] using hmsg
  · rw [hF c herr]; simp
  · rw [hG c herr]; simp
  · rw [hF c herr, hF { c with bound := u } herr]
  · rw [hG c herr, hG { c with bound := u } herr]

theorem postUser_bindError_witness :
    Fiber.postUser (ctxWithBody ⟨0, lit "Jane", []⟩ (some (lit "unexpected end of JSON input"))) =
        ⟨400, Body.json [("error", JSONValue.str (lit "unexpected end of JSON input"))]⟩ ∧
      Gin.postUser (ctxWithBody ⟨0, lit "Jane", []⟩ (some (lit "unexpected end of JSON input"))) =
        ⟨400, Body.json [("error", JSONValue.str (lit "unexpected end of JSON input"))]⟩ ∧
      (Fiber.postUser (ctxWithBody ⟨0, lit "Jane", []⟩
          (some (lit "unexpected end of JSON input")))).field "error" ≠
        some (JSONValue.str []) :=
  have h := postUser_bindError
    (ctxWithBody ⟨0, lit "Jane", []⟩ (some (lit "unexpected end of JSON input")))
    (lit "unexpected end of JSON input") rfl
  ⟨h.1, h.2.1, (h.2.2.2.2.1 (by decide)).1⟩

/-- C5, counterexample: the Gin `GET /search` handler, given `limit=5`, returns
the integer 5 in `limit`, not the string `5` that was provided. -/
theorem search_limit_counterexample :
    (Gin.search (ctxWithQuery [(lit "q", lit "foo"), (lit "limit", lit "5")])).field "limit" =
        some (JSONValue.int 5) ∧
      (Gin.search (ctxWithQuery [(lit "q", lit "foo"), (lit "limit", lit "5")])).field "limit" ≠
        some (JSONValue.str (lit "5")) := by
  decide

/-- C5, amended: the Fiber `GET /search` handler returns in `limit` the value of
the query parameter exactly as provided, as a string, and `10` when it is
absent; the Gin handler returns in `limit` the integer that `Atoi` yields for
that value, the error discarded: the integer the value denotes when it is a
base-10 integer of the 64-bit signed range, and the integer 10 when the
parameter is absent. -/
theorem search_limit (c : RequestContext) :
    (Fiber.search c).field "limit" =
        some (JSONValue.str ((c.query.lookup (lit "limit")).getD (lit "10"))) ∧
      (Gin.search c).field "limit" =
        some (JSONValue.int (Atoi ((c.query.lookup (lit "limit")).getD (lit "10"))).1) ∧
      (validInt ((c.query.lookup (lit "limit")).getD (lit "10")) →
        (Gin.search c).field "limit" =
          some (JSONValue.int (intValue ((c.query.lookup (lit "limit")).getD (lit "10"))))) ∧
      (c.query.lookup (lit "limit") = none →
        (Fiber.search c).field "limit" = some (JSONValue.str (lit "10")) ∧
          (Gin.search c).field "limit" = some (JSONValue.int 10)) := by
  have hF : (Fiber.search c).field "limit" =
      some (JSONValue.str ((c.query.lookup (lit "limit")).getD (lit "10"))) := rfl
  have hG : (Gin.search c).field "limit" =
      some (JSONValue.int (Atoi ((c.query.lookup (lit "limit")).getD (lit "10"))).1) := rfl
  refine ⟨hF, hG, fun hv => ?_, fun habs => ⟨?_, ?_⟩⟩
  · rw [hG, Atoi_of_validInt _ hv]
  · rw [hF, habs]; rfl
  · rw [hG, habs]; decide

theorem search_limit_witness :
    (Gin.search (ctxWithQuery [(lit "limit", lit "-7")])).field "limit" =
        some (JSONValue.int (intValue (lit "-7"))) ∧
      (Fiber.search (ctxWithQuery [])).field "limit" = some (JSONValue.str (lit "10")) ∧
      (Gin.search (ctxWithQuery [])).field "limit" = some (JSONValue.int 10) :=
  ⟨(search_limit (ctxWithQuery [(lit "limit", lit "-7")])).2.2.1 (by decide),
    (search_limit (ctxWithQuery [])).2.2.2 rfl⟩

/-- C6: for every request both `GET /search` handlers answer 200, with `query`
equal to the `q` parameter when it is present and to `default` when it is
absent, and with `results` exactly `["result1","result2","result3"]`, whatever
the query parameters are. -/
theorem search_query_results (c : RequestContext) :
    (Fiber.search c).status = 200 ∧ (Gin.search c).status = 200 ∧
      (Fiber.search c).field "query" =
        some (JSONValue.str ((c.query.lookup (lit "q")).getD (lit "default"))) ∧
      (Gin.search c).field "query" =
        some (JSONValue.str ((c.query.lookup (lit "q")).getD (lit "default"))) ∧
      (Fiber.search c).field "results" =
        some (JSONValue.strings [lit "result1", lit "result2", lit "result3"]) ∧
      (Gin.search c).field "results" =
        some (JSONValue.strings [lit "result1", lit "result2", lit "result3"]) :=
  ⟨rfl, rfl, rfl, rfl, rfl, rfl⟩

/-- C7: for every form body both `POST /form` handlers answer 200 with a JSON
object of exactly three fields: `name` and `email`, the values of the form
fields of those names (the empty string when a field is absent), and `message`,
which is `Form received`. -/
theorem form_echo (c : RequestContext) :
    Fiber.form c = ⟨200, Body.json [
        ("email", JSONValue.str ((c.form.lookup (lit "email")).getD [])),
        ("message", JSONValue.str (lit "Form received")),
        ("name", JSONValue.str ((c.form.lookup (lit "name")).getD []))]⟩ ∧
      Gin.form c = Fiber.form c ∧
      (Fiber.form c).keys = ["email", "message", "name"] ∧
      (Fiber.form c).field "name" = some (JSONValue.str ((c.form.lookup (lit "name")).getD [])) ∧
      (Fiber.form c).field "email" = some (JSONValue.str ((c.form.lookup (lit "email")).getD [])) ∧
      (Fiber.form c).field "message" = some (JSONValue.str (lit "Form received")) :=
  ⟨rfl, rfl, rfl, rfl, rfl, rfl⟩

/-- C8: in a route table where route `A` is registered before route `B`, both
of the same method and the same segment shape, every path that matches both
(and no route registered before `A`) resolves to the handler of `A`, with the
bindings of `A`.  The table is arbitrary: with nothing around `A` and `B` it is
the table of the two registrations, and it may be the table of either server. -/
theorem resolve_first_registered {H : Type} (pre mid post : List (Route H)) (A B : Route H)
    (method path : GoString) (bA bB : ParamBindings)
    (_hmethod : A.method = B.method) (_hshape : sameShape A.pattern B.pattern = true)
    (hA : A.matches method path = some bA) (_hB : B.matches method path = some bB)
    (hpre : ∀ r ∈ pre, r.matches method path = none) :
    resolve (pre ++ A :: (mid ++ B :: post)) method path = some (A.handler, bA) := by
  induction pre with
  | nil => simp only [List.nil_append, resolve, hA]
  | cons r pre ih =>
    have hr := hpre r (List.mem_cons_self _ _)
    simp only [List.cons_append, resolve, hr]
    exact ih (fun x hx => hpre x (List.mem_cons_of_mem _ hx))

theorem resolve_first_registered_witness :
    resolve (register (register ([] : List (Route Nat))
        (lit "GET") (lit "/user/:id") 1) (lit "GET") (lit "/user/:name") 2)
      (lit "GET") (lit "/user/42") = some (1, [(lit "id", lit "42")]) :=
  resolve_first_registered [] [] []
    ⟨lit "GET", parsePattern (lit "/user/:id"), 1⟩ ⟨lit "GET", parsePattern (lit "/user/:name"), 2⟩
    (lit "GET") (lit "/user/42") [(lit "id", lit "42")] [(lit "name", lit "42")]
    rfl (by decide) (by decide) (by decide) (by simp)

/-- C9, counterexample: on a request without query parameters the two
`GET /search` handlers return different bodies: `limit` is the string `10` in
Fiber and the integer 10 in Gin. -/
theorem handlers_agree_counterexample :
    Fiber.search (ctxWithQuery []) ≠ Gin.search (ctxWithQuery []) ∧
      (Fiber.search (ctxWithQuery [])).field "limit" = some (JSONValue.str (lit "10")) ∧
      (Gin.search (ctxWithQuery [])).field "limit" = some (JSONValue.int 10) := by
  decide

/-- C9, amended: whenever the two frameworks hand the same request input to
the handlers (path parameter, query values, outcome of the bind, form values),
the Fiber handler and the Gin handler of `GET /`, `GET /json`, `GET /user/:id`,
`POST /user` and `POST /form` return the same status and the same body; for
`GET /search` they return the same status, the same field names and the same
`query` and `results` fields, while `limit` is the provided string in Fiber and
the integer that `Atoi` yields for it in Gin. -/
theorem handlers_agree (f : Fiber.Ctx) (g : Gin.Context)
    (hid : f.Params (lit "id") = g.Param (lit "id"))
    (hq : f.Query (lit "q") (lit "default") = g.DefaultQuery (lit "q") (lit "default"))
    (hlimit : f.Query (lit "limit") (lit "10") = g.DefaultQuery (lit "limit") (lit "10"))
    (hbind : f.BindBody User.zero = g.ShouldBindJSON User.zero)
    (hname : f.FormValue (lit "name") = g.PostForm (lit "name"))
    (hemail : f.FormValue (lit "email") = g.PostForm (lit "email")) :
    Fiber.rootHandler f = Gin.rootHandler g ∧ Fiber.jsonHandler f = Gin.jsonHandler g ∧
      Fiber.getUserHandler f = Gin.getUserHandler g ∧
      Fiber.postUserHandler f = Gin.postUserHandler g ∧
      Fiber.formHandler f = Gin.formHandler g ∧
      (Fiber.searchHandler f).status = (Gin.searchHandler g).status ∧
      (Fiber.searchHandler f).keys = (Gin.searchHandler g).keys ∧
      (Fiber.searchHandler f).field "query" = (Gin.searchHandler g).field "query" ∧
      (Fiber.searchHandler f).field "results" = (Gin.searchHandler g).field "results" ∧
      (Fiber.searchHandler f).field "limit" =
        some (JSONValue.str (g.DefaultQuery (lit "limit") (lit "10"))) ∧
      (Gin.searchHandler g).field "limit" =
        some (JSONValue.int (Atoi (g.DefaultQuery (lit "limit") (lit "10"))).1) := by
  refine ⟨rfl, rfl, ?_, ?_, ?_, rfl, rfl, ?_, rfl, ?_, rfl⟩
  · simp only [Fiber.getUserHandler, Gin.getUserHandler, hid]
  · simp only [Fiber.postUserHandler, Gin.postUserHandler, hbind]
  · simp only [Fiber.formHandler, Gin.formHandler, hname, hemail]
  · show some (JSONValue.str (f.Query (lit "q") (lit "default"))) =
      some (JSONValue.str (g.DefaultQuery (lit "q") (lit "default")))
    rw [hq]
  · show some (JSONValue.str (f.Query (lit "limit") (lit "10"))) =
      some (JSONValue.str (g.DefaultQuery (lit "limit") (lit "10")))
    rw [hlimit]

theorem handlers_agree_witness :
    Fiber.getUser (ctxWithId (lit "42")) = Gin.getUser (ctxWithId (lit "42")) ∧
      Fiber.postUser (ctxWithId (lit "42")) = Gin.postUser (ctxWithId (lit "42")) ∧
      Fiber.form (ctxWithId (lit "42")) = Gin.form (ctxWithId (lit "42")) ∧
      (Gin.search (ctxWithId (lit "42"))).field "limit" = some (JSONValue.int 10) :=
  have h := handlers_agree (Fiber.ctxOf (ctxWithId (lit "42"))) (Gin.ctxOf (ctxWithId (lit "42")))
    rfl rfl rfl rfl rfl rfl
  ⟨h.2.2.1, h.2.2.2.1, h.2.2.2.2.1, h.2.2.2.2.2.2.2.2.2.2⟩

/-- C10, counterexample: given `limit=99999999999999999999x`, which is not a
base-10 integer, the Gin `GET /search` handler returns 9223372036854775807 in
`limit`, not 0: `Atoi` reports the overflow of the leading digits before it
reaches the `x`. -/
theorem gin_search_limit_counterexample :
    ¬ isIntSyntax (lit "99999999999999999999x") ∧
      (Gin.search (ctxWithQuery [(lit "limit", lit "99999999999999999999x")])).field "limit" =
        some (JSONValue.int 9223372036854775807) ∧
      (Gin.search (ctxWithQuery [(lit "limit", lit "99999999999999999999x")])).field "limit" ≠
        some (JSONValue.int 0) := by
  decide

/-- C10, amended: the Gin `GET /search` handler answers 200 for every value of
`limit`; when that value is not an optional sign followed by one or more digits
and the digits right after the optional sign, read as a number, stay below
`2 ^ 64` (as in every value of at most 19 bytes), `limit` is the integer 0;
when those leading digits reach `2 ^ 64`, `limit` is the saturated bound. -/
theorem gin_search_limit_invalid (c : RequestContext) :
    (Gin.search c).status = 200 ∧
      ((c.queryOr (lit "limit") (lit "10")).wellFormed →
        ¬ isIntSyntax (c.queryOr (lit "limit") (lit "10")) →
        accValue 0 (digitRun (unsignedPart (c.queryOr (lit "limit") (lit "10")))) < 2 ^ 64 →
        (Gin.search c).field "limit" = some (JSONValue.int 0)) ∧
      ((c.queryOr (lit "limit") (lit "10")).wellFormed →
        ¬ isIntSyntax (c.queryOr (lit "limit") (lit "10")) →
        2 ^ 64 ≤ accValue 0 (digitRun (unsignedPart (c.queryOr (lit "limit") (lit "10")))) →
        (Gin.search c).field "limit" =
          some (JSONValue.int (clampInt64 (isNeg (c.queryOr (lit "limit") (lit "10")))))) := by
  have hG : (Gin.search c).field "limit" =
      some (JSONValue.int (Atoi (c.queryOr (lit "limit") (lit "10"))).1) := rfl
  refine ⟨rfl, fun hwf hbad hrun => ?_, fun hwf hbad hrun => ?_⟩
  · have hval : ¬ validInt (c.queryOr (lit "limit") (lit "10")) := fun h => hbad h.1
    have hnov : ¬ (2 ^ 64 ≤ accValue 0 (digitRun (unsignedPart (c.queryOr (lit "limit") (lit "10"))))) :=
      Nat.not_le.mpr hrun
    rw [hG, Atoi_eq_spec _ hwf]
    unfold atoiSpec
    rw [if_neg hval, if_neg (by intro h; rcases h with h | h; exact hnov h; exact hbad h)]
  · have hval : ¬ validInt (c.queryOr (lit "limit") (lit "10")) := fun h => hbad h.1
    rw [hG, Atoi_eq_spec _ hwf]
    unfold atoiSpec
    rw [if_neg hval, if_pos (Or.inl hrun)]

theorem gin_search_limit_invalid_witness :
    (Gin.search (ctxWithQuery [(lit "limit", lit "5x")])).field "limit" = some (JSONValue.int 0) ∧
      (Gin.search (ctxWithQuery [(lit "limit", lit "-99999999999999999999x")])).field "limit" =
        some (JSONValue.int (-9223372036854775808)) :=
  ⟨(gin_search_limit_invalid (ctxWithQuery [(lit "limit", lit "5x")])).2.1
      (by decide) (by decide) (by decide),
    (gin_search_limit_invalid (ctxWithQuery [(lit "limit", lit "-99999999999999999999x")])).2.2
      (by decide) (by decide) (by decide)⟩

end FiberGin
